import Mathlib

/-!
Verification of the disco JSON-filling pipeline
(backend/sandbox_builders/entertainment_builder.py,
backend/langraph/graph.py, backend/ui_templates/template_loader.py).

JSON values are embedded as an inductive type; Python dicts become
association lists (insertion-ordered, as Python dicts are), Python
floats in JSON numbers are irrelevant to the merge/fill logic and are
carried as an opaque rational payload.
-/

namespace Disco

/-- A JSON value, as manipulated by `update_json` / `safe_merge` /
`DeterministicFiller`.  Objects keep Python's dict insertion order. -/
inductive Json where
  | null
  | bool (b : Bool)
  | num (n : ℚ)
  | str (s : String)
  | arr (elems : List Json)
  | obj (fields : List (String × Json))

namespace Json

/-- Python `isinstance(x, dict)`. -/
def isObj : Json → Bool
  | .obj _ => true
  | _ => false

/-- First binding for a key in an object's field list (Python dict lookup

`candidate_obj[key]` / `key in candidate_obj`). -/
def lookupField (fields : List (String × Json)) (k : String) : Option Json :=
  match fields with
  | [] => none
  | (k', v) :: rest => if k' = k then some v else lookupField rest k

end Json

/-- The ASCII whitespace characters removed by Python's `str.strip()`. -/
def isPySpace (c : Char) : Bool :=
  c = ' ' || c = '\t' || c = '\n' || c = '\x0d' ||
    c = Char.ofNat 11 || c = Char.ofNat 12

/-- Python `str.strip()` on a character list: drop leading and trailing
whitespace. -/
def pyStripList (l : List Char) : List Char :=
  (((l.dropWhile isPySpace).reverse).dropWhile isPySpace).reverse

/-- Python `str.strip()`: drop leading and trailing whitespace. -/
def pyStrip (s : String) : String :=
  String.mk (pyStripList s.data)

/-- ASCII case folding of one character, as Python `str.lower()` does on
the ASCII range (the only range the sentinel comparisons exercise). -/
def pyLowerChar (c : Char) : Char :=
  if 'A' ≤ c && c ≤ 'Z' then Char.ofNat (c.toNat + 32) else c

/-- Python `str.lower()`. -/
def pyLower (s : String) : String :=
  String.mk (s.data.map pyLowerChar)

/-- `safe_merge`'s placeholder test on a template string
(`template_obj.strip() == "" or template_obj.strip().lower() in
("tbd", "placeholder", "n/a", "text", "title")`). -/
def isEmptyOrPlaceholder (s : String) : Bool :=
  pyStrip s = "" ||
    (pyLower (pyStrip s) = "tbd" || pyLower (pyStrip s) = "placeholder" ||
     pyLower (pyStrip s) = "n/a" || pyLower (pyStrip s) = "text" ||
     pyLower (pyStrip s) = "title")

mutual

/-- `safe_merge(template_obj, candidate_obj)` from `update_json` in
`entertainment_builder.py`: structure-preserving merge of an LLM candidate
into a template. -/
def safe_merge (t c : Disco.Json) : Disco.Json :=
  match t, c with
  | .obj tfields, .obj cfields => .obj (mergeFields tfields cfields)
  | .arr telems, .arr celems =>
    match telems with
    | proto :: _ =>
      .arr (celems.filterMap (fun item =>
        if proto.isObj && item.isObj then
          some (safe_merge proto item)
        else if !proto.isObj && !item.isObj then
          some item
        else
          none))
    | [] =>
      if celems.all (fun x => !x.isObj) then .arr celems else .arr []
  | .str s, c =>
    if isEmptyOrPlaceholder s then
      match c with
      | .str cs => .str cs
      | _ => .str s
    else .str s
  | .null, c => c
  | t, _ => t
termination_by (sizeOf t, sizeOf c)
decreasing_by
  all_goals simp_wf
  all_goals apply Prod.Lex.left
  all_goals omega

/-- The per-key loop of `safe_merge`'s dict/dict branch: result key list is
the template's; keys present in the candidate recurse, absent keys keep the
template value. -/
def mergeFields (tfields cfields : List (String × Disco.Json)) :
    List (String × Disco.Json) :=
  match tfields with
  | [] => []
  | (k, tv) :: rest =>
    match Json.lookupField cfields k with
    | some cv => (k, safe_merge tv cv) :: mergeFields rest cfields
    | none => (k, tv) :: mergeFields rest cfields
termination_by (sizeOf tfields, sizeOf cfields)
decreasing_by
  all_goals simp_wf
  all_goals apply Prod.Lex.left
  all_goals omega

end

/-- Structural shape of a JSON document, as the spec's Guarantee defines it:
an object maps to its exact key set with per-key shapes, a non-empty array
to the shape of its first element, an empty array is unshaped, and a scalar
leaf to its type. -/
inductive Shape where
  | snull
  | sbool
  | snum
  | sstr
  | sarr (elem : Option Shape)
  | sobj (fields : List (String × Shape))

mutual

/-- `shape(doc)`: the structural descriptor of the spec's Guarantee
`shape(merge(T, C)) == shape(T)`. -/
def shape : Json → Shape
  | .null => .snull
  | .bool _ => .sbool
  | .num _ => .snum
  | .str _ => .sstr
  | .arr [] => .sarr none
  | .arr (x :: _) => .sarr (some (shape x))
  | .obj fields => .sobj (shapeFields fields)
termination_by j => sizeOf j
decreasing_by
  all_goals simp_wf
  all_goals omega

/-- Per-key shapes of an object's fields. -/
def shapeFields : List (String × Json) → List (String × Shape)
  | [] => []
  | (k, v) :: rest => (k, shape v) :: shapeFields rest
termination_by l => sizeOf l
decreasing_by
  all_goals simp_wf
  all_goals omega

end

mutual

/-- `true` iff the document contains no `null` node and no array node:
only objects, strings, numbers and booleans. -/
def scalarObjOnly : Json → Bool
  | .null => false
  | .arr _ => false
  | .bool _ => true
  | .num _ => true
  | .str _ => true
  | .obj fields => fieldsScalarObjOnly fields
termination_by j => sizeOf j
decreasing_by
  all_goals simp_wf

/-- `scalarObjOnly` over all values of an object's fields. -/
def fieldsScalarObjOnly : List (String × Json) → Bool
  | [] => true
  | (_, v) :: rest => scalarObjOnly v && fieldsScalarObjOnly rest
termination_by l => sizeOf l
decreasing_by
  all_goals simp_wf
  all_goals omega

end

section MergeEquations

/-- A template number is returned unchanged whatever the candidate is. -/
theorem safe_merge_num (n : ℚ) (c : Json) : safe_merge (.num n) c = .num n := by
  rw [safe_merge.eq_def]

/-- A template boolean is returned unchanged whatever the candidate is. -/
theorem safe_merge_bool (b : Bool) (c : Json) : safe_merge (.bool b) c = .bool b := by
  rw [safe_merge.eq_def]

/-- A non-placeholder template string is returned unchanged. -/
theorem safe_merge_str_keep (s : String) (c : Json)
    (h : isEmptyOrPlaceholder s = false) : safe_merge (.str s) c = .str s := by
  rw [safe_merge.eq_def]
  cases c <;> simp [h]

/-- A placeholder template string takes a string candidate's value. -/
theorem safe_merge_str_fill (s cs : String)
    (h : isEmptyOrPlaceholder s = true) :
    safe_merge (.str s) (.str cs) = .str cs := by
  rw [safe_merge.eq_def]
  simp [h]

/-- A placeholder template string is kept when the candidate is not a string. -/
theorem safe_merge_str_nonstr (s : String) (c : Json)
    (h : isEmptyOrPlaceholder s = true) (hc : ∀ cs, c ≠ .str cs) :
    safe_merge (.str s) c = .str s := by
  rw [safe_merge.eq_def]
  cases c <;> simp [h]
  exact absurd rfl (hc _)

/-- The dict/dict branch delegates to the per-key loop. -/
theorem safe_merge_obj_obj (tf cf : List (String × Json)) :
    safe_merge (.obj tf) (.obj cf) = .obj (mergeFields tf cf) := by
  rw [safe_merge.eq_def]

/-- A template object is returned unchanged when the candidate is not an
object. -/
theorem safe_merge_obj_keep (tf : List (String × Json)) (c : Json)
    (hc : ∀ cf, c ≠ .obj cf) : safe_merge (.obj tf) c = .obj tf := by
  rw [safe_merge.eq_def]
  cases c <;> try rfl
  exact absurd rfl (hc _)

/-- A template array is returned unchanged when the candidate is not an
array. -/
theorem safe_merge_arr_keep (ts : List Json) (c : Json)
    (hc : ∀ cs, c ≠ .arr cs) : safe_merge (.arr ts) c = .arr ts := by
  rw [safe_merge.eq_def]
  cases c <;> try (cases ts <;> rfl)
  exact absurd rfl (hc _)

/-- The per-key loop does nothing on an empty template object. -/
theorem mergeFields_nil (cf : List (String × Json)) : mergeFields [] cf = [] := by
  rw [mergeFields.eq_def]

/-- Per-key loop, key present in the candidate: recurse on the values. -/
theorem mergeFields_cons_found (k : String) (v : Json)
    (rest cf : List (String × Json)) (cv : Json)
    (h : Json.lookupField cf k = some cv) :
    mergeFields ((k, v) :: rest) cf =
      (k, safe_merge v cv) :: mergeFields rest cf := by
  rw [mergeFields.eq_def]
  simp [h]

/-- Per-key loop, key absent from the candidate: keep the template value. -/
theorem mergeFields_cons_missing (k : String) (v : Json)
    (rest cf : List (String × Json))
    (h : Json.lookupField cf k = none) :
    mergeFields ((k, v) :: rest) cf = (k, v) :: mergeFields rest cf := by
  rw [mergeFields.eq_def]
  simp [h]

end MergeEquations

/-- C1 (amended): on templates with no `null` and no array node, the merge
preserves the structural shape: `shape (safe_merge t c) = shape t` for every
candidate `c`. -/
theorem shape_safe_merge_of_scalarObjOnly :
    ∀ t c : Json, scalarObjOnly t = true → shape (safe_merge t c) = shape t := by
  refine safe_merge.induct
    (fun t c => scalarObjOnly t = true → shape (safe_merge t c) = shape t)
    (fun tf cf => fieldsScalarObjOnly tf = true →
      shapeFields (mergeFields tf cf) = shapeFields tf)
    ?_ ?_ ?_ ?_ ?_ ?_ ?_ ?_ ?_ ?_ ?_ ?_
  · intro tf cf ih h
    simp only [scalarObjOnly] at h
    rw [safe_merge_obj_obj]
    simp only [shape]
    rw [ih h]
  · intro celems proto tail _ h
    simp [scalarObjOnly] at h
  · intro celems _ h
    simp [scalarObjOnly] at h
  · intro celems _ h
    simp [scalarObjOnly] at h
  · intro s hpl cs _
    rw [safe_merge_str_fill s cs hpl]
    rw [shape.eq_def, shape.eq_def]
  · intro s c hpl hnot _
    rw [safe_merge_str_nonstr s c hpl (fun cs hc => hnot cs hc)]
  · intro s c hpl _
    rw [safe_merge_str_keep s c (by simpa using hpl)]
  · intro c h
    simp [scalarObjOnly] at h
  · intro c t hstr hnull hobj harr h
    cases t with
    | null => exact absurd rfl hnull
    | bool b => rw [safe_merge_bool]
    | num n => rw [safe_merge_num]
    | str s => exact absurd rfl (hstr s)
    | arr ts => simp [scalarObjOnly] at h
    | obj tf =>
      rw [safe_merge_obj_keep tf c (fun cf hc => hobj tf cf rfl hc)]
  · intro cf _
    rw [mergeFields_nil]
  · intro cf k v rest cv hlk ih1 ih2 h
    simp only [fieldsScalarObjOnly, Bool.and_eq_true] at h
    rw [mergeFields_cons_found k v rest cf cv hlk]
    simp only [shapeFields]
    rw [ih1 h.1, ih2 h.2]
  · intro cf k v rest hlk ih2 h
    simp only [fieldsScalarObjOnly, Bool.and_eq_true] at h
    rw [mergeFields_cons_missing k v rest cf hlk]
    simp only [shapeFields]
    rw [ih2 h.2]

/-- Witness for the amended C1 at a concrete template/candidate pair. -/
theorem shape_safe_merge_of_scalarObjOnly_witness :
    scalarObjOnly (Json.obj [("title", .str "Fixed Copy")]) = true ∧
      shape (safe_merge (Json.obj [("title", .str "Fixed Copy")])
          (Json.obj [("title", .str "Hallucinated")])) =
        shape (Json.obj [("title", .str "Fixed Copy")]) :=
  ⟨by simp [scalarObjOnly, fieldsScalarObjOnly],
   shape_safe_merge_of_scalarObjOnly _ _
     (by simp [scalarObjOnly, fieldsScalarObjOnly])⟩

/-- C1 as stated is false: a `null` template leaf is replaced by a candidate
of any shape, and a template array's shape is not preserved either (here a
number-shaped array becomes string-shaped).  At this concrete input,
`shape (safe_merge T C) ≠ shape T`. -/
theorem shape_safe_merge_counterexample :
    shape (safe_merge
        (Json.obj [("a", .null), ("b", .arr [.num 1])])
        (Json.obj [("a", .obj [("x", .num 1)]), ("b", .arr [.str "s"])])) ≠
      shape (Json.obj [("a", .null), ("b", .arr [.num 1])]) := by
  simp [safe_merge, mergeFields, shape, shapeFields, Json.lookupField, Json.isObj]

/-- One step of a path into a JSON document: an object key or an array
index (the spec's `path(v)` notation in `merge(T,C)[path(v)] == v`). -/
inductive PathElem where
  | key (k : String)
  | idx (i : Nat)

/-- Follow a path of keys/indices through a document. -/
def getPath : Json → List PathElem → Option Json
  | j, [] => some j
  | .obj fields, .key k :: rest =>
    match Json.lookupField fields k with
    | some v => getPath v rest
    | none => none
  | .arr elems, .idx i :: rest =>
    match elems.get? i with
    | some v => getPath v rest
    | none => none
  | _, _ => none

/-- `c.isObj = true` names an object. -/
theorem isObj_eq_true_iff (c : Json) : c.isObj = true ↔ ∃ cf, c = .obj cf := by
  cases c <;> simp [Json.isObj]

/-- A template object survives any non-object candidate unchanged. -/
theorem safe_merge_obj_keep' (tf : List (String × Json)) (c : Json)
    (h : c.isObj = false) : safe_merge (.obj tf) c = .obj tf :=
  safe_merge_obj_keep tf c (fun cf hc => by subst hc; simp [Json.isObj] at h)

/-- Key lookup in a merged object: the key list is the template's; a key
found in the candidate carries the merged value, a missing one the template
value. -/
theorem lookupField_mergeFields (tf cf : List (String × Json)) (k : String) :
    Json.lookupField (mergeFields tf cf) k =
      match Json.lookupField tf k, Json.lookupField cf k with
      | some tv, some cv => some (safe_merge tv cv)
      | some tv, none => some tv
      | none, _ => none := by
  induction tf with
  | nil => simp [mergeFields_nil, Json.lookupField]
  | cons kv rest ih =>
    obtain ⟨k', v⟩ := kv
    cases hlk : Json.lookupField cf k' with
    | some cv =>
      rw [mergeFields_cons_found k' v rest cf cv hlk]
      by_cases hk : k' = k
      · subst hk
        simp [Json.lookupField, hlk]
      · simp [Json.lookupField, hk, ih]
    | none =>
      rw [mergeFields_cons_missing k' v rest cf hlk]
      by_cases hk : k' = k
      · subst hk
        simp [Json.lookupField, hlk]
      · simp [Json.lookupField, hk, ih]

/-- C2 (amended): a non-placeholder string leaf of the template whose path
passes only through object keys (no array index) is present unchanged at
that path in the merged document, whatever the candidate contains. -/
theorem safe_merge_keeps_nonplaceholder_keypaths :
    ∀ (p : List PathElem) (t c : Json) (v : String),
      (∀ e ∈ p, ∃ k, e = PathElem.key k) →
      getPath t p = some (.str v) →
      isEmptyOrPlaceholder v = false →
      getPath (safe_merge t c) p = some (.str v) := by
  intro p
  induction p with
  | nil =>
    intro t c v _ hget hpl
    simp only [getPath, Option.some.injEq] at hget
    subst hget
    rw [safe_merge_str_keep v c hpl]
    rfl
  | cons e rest ih =>
    intro t c v hkeys hget hpl
    obtain ⟨k, rfl⟩ := hkeys e (by simp)
    cases t with
    | obj tf =>
      simp only [getPath] at hget
      cases hlk : Json.lookupField tf k with
      | none => rw [hlk] at hget; simp at hget
      | some tv =>
        rw [hlk] at hget
        cases hcobj : c.isObj with
        | false =>
          rw [safe_merge_obj_keep' tf c hcobj]
          simp only [getPath]
          rw [hlk]
          exact hget
        | true =>
          obtain ⟨cf, rfl⟩ := (isObj_eq_true_iff c).mp hcobj
          rw [safe_merge_obj_obj]
          simp only [getPath]
          rw [lookupField_mergeFields, hlk]
          cases hlc : Json.lookupField cf k with
          | some cv =>
            exact ih tv cv v (fun e he => hkeys e (by simp [he])) hget hpl
          | none => exact hget
    | null => simp [getPath] at hget
    | bool b => simp [getPath] at hget
    | num n => simp [getPath] at hget
    | str s => simp [getPath] at hget
    | arr ts => simp [getPath] at hget

/-- Witness for the amended C2 at a concrete template/candidate pair. -/
theorem safe_merge_keeps_nonplaceholder_keypaths_witness :
    getPath (Json.obj [("title", .str "Fixed Copy")]) [.key "title"] =
        some (.str "Fixed Copy") ∧
      getPath (safe_merge (Json.obj [("title", .str "Fixed Copy")])
          (Json.obj [("title", .str "Hallucinated")])) [.key "title"] =
        some (.str "Fixed Copy") :=
  ⟨by simp [getPath, Json.lookupField],
   safe_merge_keeps_nonplaceholder_keypaths [.key "title"] _ _ "Fixed Copy"
     (by simp) (by simp [getPath, Json.lookupField]) (by decide)⟩

/-- C2 as stated is false: a scalar element of a template array is a
non-placeholder string leaf, yet the merge replaces it with the candidate's
element (the list branch appends candidate scalars without consulting the
placeholder rule). -/
theorem safe_merge_nonplaceholder_counterexample :
    getPath (Json.arr [.str "Fixed Copy"]) [.idx 0] = some (.str "Fixed Copy") ∧
      isEmptyOrPlaceholder "Fixed Copy" = false ∧
      getPath (safe_merge (Json.arr [.str "Fixed Copy"])
          (Json.arr [.str "Hallucinated"])) [.idx 0] ≠
        some (.str "Fixed Copy") := by
  refine ⟨by simp [getPath], by decide, ?_⟩
  simp [safe_merge, getPath, Json.isObj]

/-- Pairwise-distinct keys in an object's field list: the invariant every
Python dict (hence every `json.loads` object) satisfies. -/
def keysDistinct : List (String × Json) → Bool
  | [] => true
  | (k, _) :: rest => (Json.lookupField rest k).isNone && keysDistinct rest

mutual

/-- The self-merge invariant: every object node has pairwise-distinct keys
(the Python dict invariant), and every array node either contains no object
element (the list branch then appends each candidate element verbatim) or
is a singleton whose sole, object, element satisfies the invariant
recursively. -/
def selfMergeOk : Json → Bool
  | .null => true
  | .bool _ => true
  | .num _ => true
  | .str _ => true
  | .obj fields => keysDistinct fields && fieldsSelfMergeOk fields
  | .arr elems =>
    if elems.all (fun x => !x.isObj) then true
    else
      match elems with
      | [x] => selfMergeOk x
      | _ => false
termination_by j => sizeOf j
decreasing_by
  all_goals simp_wf
  all_goals omega

/-- `selfMergeOk` over an object's field values. -/
def fieldsSelfMergeOk : List (String × Json) → Bool
  | [] => true
  | (_, v) :: rest => selfMergeOk v && fieldsSelfMergeOk rest
termination_by l => sizeOf l
decreasing_by
  all_goals simp_wf
  all_goals omega

end

/-- The newline-normalization step of `PromptSanitizer.sanitize`:
`"\n".join(line.strip() for line in text.split("\n") if line.strip())`. -/
def collapseLines (l : List Char) : List Char :=
  List.intercalate ['\n']
    (((l.splitOn '\n').filter (fun line => pyStripList line ≠ [])).map pyStripList)

/-- Character-level body of `PromptSanitizer.sanitize`: collapse blank
lines, then truncate to 2000 characters with a `"..."` marker appended. -/
def sanitizeData (l : List Char) : List Char :=
  if l = [] then []
  else if (collapseLines l).length > 2000 then
    (collapseLines l).take 2000 ++ "...".data
  else collapseLines l

/-- `PromptSanitizer.sanitize(text)` from `entertainment_builder.py`
(`None` and the empty string both fall into the `if not text` branch). -/
def sanitize (text : Option String) : String :=
  match text with
  | none => ""
  | some t => String.mk (sanitizeData t.data)

/-- C7 (amended): `sanitize` always returns at most 2003 characters: the
normalized text is hard-truncated to 2000 characters and the 3-character
`"..."` marker is appended after the cut, so the marker sits outside the
2000-character budget. -/
theorem sanitize_length_le : ∀ text : Option String, (sanitize text).length ≤ 2003 := by
  intro text
  match text with
  | none => simp [sanitize]
  | some t =>
    show (String.mk (sanitizeData t.data)).length ≤ 2003
    have h : (String.mk (sanitizeData t.data)).length = (sanitizeData t.data).length := rfl
    rw [h]
    unfold sanitizeData
    split
    · simp
    · split
      · rename_i hlen
        rw [List.length_append, List.length_take]
        have h3 : ("...".data).length = 3 := rfl
        omega
      · omega

/-- `dropWhile` keeps a list on which the predicate never holds. -/
theorem dropWhile_eq_self_of_forall {α : Type} (p : α → Bool) (l : List α)
    (h : ∀ c ∈ l, p c = false) : l.dropWhile p = l := by
  cases l with
  | nil => rfl
  | cons a as =>
    rw [List.dropWhile_cons]
    simp [h a (List.mem_cons_self a as)]

/-- `pyStripList` keeps a list containing no Python whitespace. -/
theorem pyStripList_eq_self_of_forall (l : List Char)
    (h : ∀ c ∈ l, isPySpace c = false) : pyStripList l = l := by
  unfold pyStripList
  rw [dropWhile_eq_self_of_forall _ _ h,
    dropWhile_eq_self_of_forall _ _ (fun c hc => h c (List.mem_reverse.mp hc)),
    List.reverse_reverse]

/-- C7 as stated is false: on an input of 2001 non-blank characters the
sanitized result has 2003 characters, exceeding the claimed 2000-character
bound (2000 kept characters plus the 3-character truncation marker). -/
theorem sanitize_length_counterexample :
    ¬ (sanitize (some (String.mk (List.replicate 2001 'a')))).length ≤ 2000 := by
  have hne : List.replicate 2001 'a' ≠ ([] : List Char) := by
    intro h
    have h2 := congrArg List.length h
    rw [List.length_replicate, List.length_nil] at h2
    omega
  have hsplit : (List.replicate 2001 'a').splitOn '\n' = [List.replicate 2001 'a'] := by
    apply List.splitOnP_eq_single
    intro x hx
    rw [List.eq_of_mem_replicate hx]
    decide
  have hstrip : pyStripList (List.replicate 2001 'a') = List.replicate 2001 'a' := by
    apply pyStripList_eq_self_of_forall
    intro c hc
    rw [List.eq_of_mem_replicate hc]
    decide
  have hinter : List.intercalate ['\n'] [List.replicate 2001 'a'] =
      List.replicate 2001 'a' := by
    rw [List.intercalate, List.intersperse_singleton, List.flatten_cons,
      List.flatten_nil, List.append_nil]
  have hcoll : collapseLines (List.replicate 2001 'a') = List.replicate 2001 'a' := by
    unfold collapseLines
    rw [hsplit, List.filter_cons, List.filter_nil, hstrip,
      if_pos (decide_eq_true hne), List.map_cons, List.map_nil, hstrip, hinter]
  have hgt : (collapseLines (List.replicate 2001 'a')).length > 2000 := by
    rw [hcoll, List.length_replicate]
    omega
  have hval : sanitizeData (List.replicate 2001 'a') =
      (collapseLines (List.replicate 2001 'a')).take 2000 ++ "...".data := by
    unfold sanitizeData
    rw [if_neg hne, if_pos hgt]
  have hlen : (sanitize (some (String.mk (List.replicate 2001 'a')))).length =
      (sanitizeData (List.replicate 2001 'a')).length := rfl
  rw [hlen, hval, List.length_append, List.length_take, hcoll, List.length_replicate]
  have h3 : ("...".data).length = 3 := rfl
  rw [h3]
  omega

/-! ### DeterministicFiller -/

namespace DeterministicFiller

/-- `DeterministicFiller._is_empty_value`: the filler's sentinel set
`("", "tbd", "placeholder", "n/a", "text", "title", "untitled", "none")`
checked against `text.strip().lower()`. -/
def isEmptyValue (s : String) : Bool :=
  pyLower (pyStrip s) = "" || pyLower (pyStrip s) = "tbd" ||
    pyLower (pyStrip s) = "placeholder" || pyLower (pyStrip s) = "n/a" ||
    pyLower (pyStrip s) = "text" || pyLower (pyStrip s) = "title" ||
    pyLower (pyStrip s) = "untitled" || pyLower (pyStrip s) = "none"

/-- The `for key in ("title","name","heading","description","body")` loop of
`_extract_best_match.walk` on a dict: first of these keys bound to a string
longer than 2 characters. -/
def findContentField (fields : List (String × Json)) : List String → Option String
  | [] => none
  | k :: ks =>
    match Json.lookupField fields k with
    | some (.str s) => if s.length > 2 then some s else findContentField fields ks
    | _ => findContentField fields ks

mutual

/-- `walk` inside `DeterministicFiller._extract_best_match`: depth-first
search for content in a search-result structure. -/
def walk : Json → Option String
  | .arr elems => walkList elems
  | .obj fields =>
    match findContentField fields ["title", "name", "heading", "description", "body"] with
    | some s => some s
    | none => walkValues fields
  | _ => none
termination_by j => sizeOf j
decreasing_by
  all_goals simp_wf

/-- The list loop of `walk`: first truthy (`if result:`) result wins. -/
def walkList : List Json → Option String
  | [] => none
  | x :: rest =>
    match walk x with
    | some s => if s ≠ "" then some s else walkList rest
    | none => walkList rest
termination_by l => sizeOf l
decreasing_by
  all_goals simp_wf
  all_goals omega

/-- The `for value in obj.values()` loop of `walk`. -/
def walkValues : List (String × Json) → Option String
  | [] => none
  | (_, v) :: rest =>
    match walk v with
    | some s => if s ≠ "" then some s else walkValues rest
    | none => walkValues rest
termination_by l => sizeOf l
decreasing_by
  all_goals simp_wf
  all_goals omega

end

/-- `DeterministicFiller._extract_best_match`: run `walk`, return `""` when
the result is falsy. -/
def extract_best_match (search_results : Json) : String :=
  match walk search_results with
  | some s => if s ≠ "" then s else ""
  | none => ""

/-- `DeterministicFiller._find_value_for_field`.  The search agent is
modelled as `Option (String → Except String Json)`: `none` when no agent is
configured, `.error` when `web_search` raises.  The md5-keyed result cache
memoizes a pure call and is semantically the identity, so it is omitted. -/
def find_value_for_field (agent : Option (String → Except String Json))
    (_fieldName ctx : String) : String :=
  match agent with
  | none => ""
  | some ws =>
    if ctx = "" then ""
    else
      match ws ctx with
      | .ok results => extract_best_match results
      | .error _ => ""

mutual

/-- `DeterministicFiller._fill_recursive`. -/
def fill_recursive (agent : Option (String → Except String Json))
    (node : Json) (ctx : String) (path : List String) : Json :=
  match node with
  | .str s =>
    if isEmptyValue s then
      .str (find_value_for_field agent (path.getLastD "") ctx)
    else .str s
  | .null =>
    if ctx ≠ "" then
      .str (find_value_for_field agent (path.getLastD "") ctx)
    else .null
  | .obj fields => .obj (fillFields agent fields ctx path)
  | .arr elems =>
    match elems with
    | [] => .arr []
    | es => .arr (fillElems agent es ctx path)
  | .num n => .num n
  | .bool b => .bool b
termination_by sizeOf node
decreasing_by
  all_goals simp_wf

/-- The dict loop of `_fill_recursive`: fill each value at `path + [key]`. -/
def fillFields (agent : Option (String → Except String Json))
    (fields : List (String × Json)) (ctx : String) (path : List String) :
    List (String × Json) :=
  match fields with
  | [] => []
  | (k, v) :: rest =>
    (k, fill_recursive agent v ctx (path ++ [k])) :: fillFields agent rest ctx path
termination_by sizeOf fields
decreasing_by
  all_goals simp_wf
  all_goals omega

/-- The list loop of `_fill_recursive`: fill each item at `path + ["[]"]`. -/
def fillElems (agent : Option (String → Except String Json))
    (elems : List Json) (ctx : String) (path : List String) : List Json :=
  match elems with
  | [] => []
  | x :: rest =>
    fill_recursive agent x ctx (path ++ ["[]"]) :: fillElems agent rest ctx path
termination_by sizeOf elems
decreasing_by
  all_goals simp_wf
  all_goals omega

end

/-- `DeterministicFiller.fill(template, page_context)`. -/
def fill (agent : Option (String → Except String Json)) (template : Json)
    (page_context : Option String) : Json :=
  fill_recursive agent template (page_context.getD "") []

mutual

/-- The frame discipline of `_fill_recursive`: same object key lists, same
array lengths, numbers, booleans and non-placeholder strings unchanged, and
a placeholder string or `null` leaf is either kept or replaced by a string. -/
def fillFrame : Json → Json → Bool
  | .str s, .str s' => if isEmptyValue s then true else s = s'
  | .str _, _ => false
  | .null, .null => true
  | .null, .str _ => true
  | .null, _ => false
  | .num n, .num n' => n = n'
  | .num _, _ => false
  | .bool b, .bool b' => b = b'
  | .bool _, _ => false
  | .arr ts, .arr rs => fillFrameElems ts rs
  | .arr _, _ => false
  | .obj tf, .obj rf => fillFrameFields tf rf
  | .obj _, _ => false
termination_by t _ => sizeOf t
decreasing_by
  all_goals simp_wf

/-- `fillFrame` element-wise over arrays of equal length. -/
def fillFrameElems : List Json → List Json → Bool
  | [], [] => true
  | t :: ts, r :: rs => fillFrame t r && fillFrameElems ts rs
  | _, _ => false
termination_by l _ => sizeOf l
decreasing_by
  all_goals simp_wf
  all_goals omega

/-- `fillFrame` field-wise over objects with identical key lists. -/
def fillFrameFields : List (String × Json) → List (String × Json) → Bool
  | [], [] => true
  | (k, t) :: ts, (k', r) :: rs => k = k' && fillFrame t r && fillFrameFields ts rs
  | _, _ => false
termination_by l _ => sizeOf l
decreasing_by
  all_goals simp_wf
  all_goals omega

end

/-- C10: whatever the search agent and context, `_fill_recursive` keeps the
template's object key lists and array lengths, returns non-placeholder
string, number and boolean leaves unchanged, and replaces placeholder
strings and `null` leaves only by strings. -/
theorem fill_recursive_fillFrame :
    ∀ (agent : Option (String → Except String Json)) (t : Json)
      (ctx : String) (path : List String),
      fillFrame t (fill_recursive agent t ctx path) = true := by
  intro agent
  refine fill_recursive.induct agent
    (fun node ctx path => fillFrame node (fill_recursive agent node ctx path) = true)
    (fun elems ctx path => fillFrameElems elems (fillElems agent elems ctx path) = true)
    (fun fields ctx path => fillFrameFields fields (fillFields agent fields ctx path) = true)
    ?_ ?_ ?_ ?_ ?_ ?_ ?_ ?_ ?_ ?_ ?_ ?_ ?_
  · intro ctx path s hs
    simp [fill_recursive, fillFrame, hs]
  · intro ctx path s hs
    simp [fill_recursive, fillFrame, hs]
  · intro ctx path hctx
    simp [fill_recursive, fillFrame, hctx]
  · intro ctx path hctx
    simp [fill_recursive, fillFrame, hctx]
  · intro ctx path fields ih
    simpa [fill_recursive, fillFrame] using ih
  · intro ctx path
    simp [fill_recursive, fillFrame, fillFrameElems]
  · intro ctx path es hes ih
    match es, hes with
    | e :: rest, _ =>
      simpa [fill_recursive, fillFrame] using ih
  · intro ctx path n
    simp [fill_recursive, fillFrame]
  · intro ctx path b
    simp [fill_recursive, fillFrame]
  · intro ctx path
    simp [fillElems, fillFrameElems]
  · intro ctx path x rest ih1 ih2
    simp [fillElems, fillFrameElems, ih1, ih2]
  · intro ctx path
    simp [fillFields, fillFrameFields]
  · intro ctx path k v rest ih1 ih2
    simp [fillFields, fillFrameFields, ih1, ih2]

end DeterministicFiller

mutual

/-- What `DeterministicFiller` computes when no search agent is configured:
every placeholder string leaf becomes the empty string, a `null` leaf
becomes the empty string exactly when the context is non-empty, everything
else is untouched. -/
def blankFill (hasCtx : Bool) : Json → Json
  | .str s => if DeterministicFiller.isEmptyValue s then .str "" else .str s
  | .null => if hasCtx then .str "" else .null
  | .obj fields => .obj (blankFillFields hasCtx fields)
  | .arr elems => .arr (blankFillElems hasCtx elems)
  | .num n => .num n
  | .bool b => .bool b
termination_by j => sizeOf j
decreasing_by
  all_goals simp_wf

/-- `blankFill` over object fields. -/
def blankFillFields (hasCtx : Bool) : List (String × Json) → List (String × Json)
  | [] => []
  | (k, v) :: rest => (k, blankFill hasCtx v) :: blankFillFields hasCtx rest
termination_by l => sizeOf l
decreasing_by
  all_goals simp_wf
  all_goals omega

/-- `blankFill` over array elements. -/
def blankFillElems (hasCtx : Bool) : List Json → List Json
  | [] => []
  | x :: rest => blankFill hasCtx x :: blankFillElems hasCtx rest
termination_by l => sizeOf l
decreasing_by
  all_goals simp_wf
  all_goals omega

end

/-- C5 (amended): with no search agent configured, `DeterministicFiller.fill`
does not leave placeholders unchanged: it replaces every placeholder string
leaf by `""` (and `null` leaves by `""` when the page context is non-empty),
keeping everything else as in the template. -/
theorem fill_none_eq_blankFill (t : Json) (page_context : Option String) :
    DeterministicFiller.fill none t page_context =
      blankFill (page_context.getD "" != "") t := by
  show DeterministicFiller.fill_recursive none t (page_context.getD "") [] = _
  generalize page_context.getD "" = ctx
  have main : ∀ (node : Json) (ctx : String) (path : List String),
      DeterministicFiller.fill_recursive none node ctx path =
        blankFill (ctx != "") node := by
    refine DeterministicFiller.fill_recursive.induct none
      (fun node ctx path => DeterministicFiller.fill_recursive none node ctx path =
        blankFill (ctx != "") node)
      (fun elems ctx path => DeterministicFiller.fillElems none elems ctx path =
        blankFillElems (ctx != "") elems)
      (fun fields ctx path => DeterministicFiller.fillFields none fields ctx path =
        blankFillFields (ctx != "") fields)
      ?_ ?_ ?_ ?_ ?_ ?_ ?_ ?_ ?_ ?_ ?_ ?_ ?_
    · intro ctx path s hs
      simp [DeterministicFiller.fill_recursive, blankFill, hs,
        DeterministicFiller.find_value_for_field]
    · intro ctx path s hs
      simp [DeterministicFiller.fill_recursive, blankFill, hs]
    · intro ctx path hctx
      simp [DeterministicFiller.fill_recursive, blankFill, hctx,
        DeterministicFiller.find_value_for_field]
    · intro ctx path hctx
      simp only [ne_eq, not_not] at hctx
      simp [DeterministicFiller.fill_recursive, blankFill, hctx]
    · intro ctx path fields ih
      simp [DeterministicFiller.fill_recursive, blankFill, ih]
    · intro ctx path
      simp [DeterministicFiller.fill_recursive, blankFill, blankFillElems]
    · intro ctx path es hes ih
      match es, hes with
      | e :: rest, _ =>
        simp only [DeterministicFiller.fill_recursive, blankFill]
        rw [ih]
    · intro ctx path n
      simp [DeterministicFiller.fill_recursive, blankFill]
    · intro ctx path b
      simp [DeterministicFiller.fill_recursive, blankFill]
    · intro ctx path
      simp [DeterministicFiller.fillElems, blankFillElems]
    · intro ctx path x rest ih1 ih2
      simp [DeterministicFiller.fillElems, blankFillElems, ih1, ih2]
    · intro ctx path
      simp [DeterministicFiller.fillFields, blankFillFields]
    · intro ctx path k v rest ih1 ih2
      simp [DeterministicFiller.fillFields, blankFillFields, ih1, ih2]
  exact main t ctx []

/-- C5 as stated is false: with no search agent, a placeholder leaf is not
left unchanged — `_find_value_for_field` returns `""` and the filler
substitutes it. -/
theorem fill_none_counterexample :
    DeterministicFiller.fill none (Json.obj [("title", .str "TBD")]) (some "movies") =
        Json.obj [("title", .str "")] ∧
      DeterministicFiller.fill none (Json.obj [("title", .str "TBD")]) (some "movies") ≠
        Json.obj [("title", .str "TBD")] := by
  have h : DeterministicFiller.fill none (Json.obj [("title", .str "TBD")]) (some "movies") =
      Json.obj [("title", .str "")] := by
    show DeterministicFiller.fill_recursive none _ _ [] = _
    simp [DeterministicFiller.fill_recursive, DeterministicFiller.fillFields,
      DeterministicFiller.find_value_for_field,
      show DeterministicFiller.isEmptyValue "TBD" = true from by decide]
  refine ⟨h, ?_⟩
  rw [h]
  simp

/-! ### Tool wrapper (`make_tool_callable` in `update_json`) -/

namespace ToolWrapper

/-- Python `type(x).__name__` for values `json.loads` can produce. -/
def pyTypeName : Json → String
  | .null => "NoneType"
  | .bool _ => "bool"
  | .num _ => "float"
  | .str _ => "str"
  | .arr _ => "list"
  | .obj _ => "dict"

/-- The `try: result = fn(**args) ... except` block: a raised exception
becomes the tagged error object, a result the tagged success object. -/
def wrapResult : Except String Json → Json
  | .ok result => .obj [("status", .str "success"), ("result", result)]
  | .error e => .obj [("status", .str "error"), ("message", .str e)]

/-- The `isinstance(args, dict)` gate: non-dict parsed arguments are
rejected with a tagged error, dict arguments are passed to the method. -/
def callArgs (fn : List (String × Json) → Except String Json) : Json → Json
  | .obj fields => wrapResult (fn fields)
  | other =>
    .obj [("status", .str "error"),
      ("message", .str ("Arguments must be a JSON object (dict), but received "
        ++ pyTypeName other))]

/-- The `call` closure produced by `make_tool_callable(cls, method)`.
Collaborator behaviour is passed in: `instantiate` models `cls()`
(`.error` = the constructor raised), `fn` models the bound method applied
to keyword arguments (`.error` = it raised, or the result was not JSON
serializable), `loads` models `json.loads` on the argument string.  The
function returns the JSON object whose `json.dumps` serialization the
wrapper returns; every Python exception path is a handled `.error` value,
so the embedding is total. -/
def call (instantiate : Except String Unit)
    (fn : List (String × Json) → Except String Json)
    (loads : String → Except String Json)
    (json_argument : String) : Json :=
  match instantiate with
  | .error e => .obj [("status", .str "error"), ("message", .str e)]
  | .ok () =>
    if json_argument ≠ "" then
      match loads json_argument with
      | .error e =>
        .obj [("status", .str "error"),
          ("message", .str ("Invalid JSON input: " ++ e))]
      | .ok args => callArgs fn args
    else wrapResult (fn [])

end ToolWrapper

/-- C6: for every collaborator behaviour (constructor, method, `json.loads`
outcome) and every argument string — valid JSON object, malformed JSON,
non-object JSON or empty — the tool wrapper returns exactly a
`{"status":"success","result":...}` or a `{"status":"error","message":...}`
object and (being a total function of the handled outcomes) lets no
exception cross the boundary. -/
theorem tool_call_shape :
    ∀ (instantiate : Except String Unit)
      (fn : List (String × Json) → Except String Json)
      (loads : String → Except String Json)
      (json_argument : String),
      (∃ r, ToolWrapper.call instantiate fn loads json_argument =
          Json.obj [("status", .str "success"), ("result", r)]) ∨
      (∃ m, ToolWrapper.call instantiate fn loads json_argument =
          Json.obj [("status", .str "error"), ("message", .str m)]) := by
  intro instantiate fn loads json_argument
  have hwrap : ∀ res : Except String Json,
      (∃ r, ToolWrapper.wrapResult res =
          Json.obj [("status", .str "success"), ("result", r)]) ∨
      (∃ m, ToolWrapper.wrapResult res =
          Json.obj [("status", .str "error"), ("message", .str m)]) := by
    intro res
    cases res with
    | ok r => exact Or.inl ⟨r, rfl⟩
    | error e => exact Or.inr ⟨e, rfl⟩
  have hargs : ∀ args : Json,
      (∃ r, ToolWrapper.callArgs fn args =
          Json.obj [("status", .str "success"), ("result", r)]) ∨
      (∃ m, ToolWrapper.callArgs fn args =
          Json.obj [("status", .str "error"), ("message", .str m)]) := by
    intro args
    cases args with
    | obj fields => exact hwrap (fn fields)
    | null => exact Or.inr ⟨_, rfl⟩
    | bool b => exact Or.inr ⟨_, rfl⟩
    | num n => exact Or.inr ⟨_, rfl⟩
    | str s => exact Or.inr ⟨_, rfl⟩
    | arr l => exact Or.inr ⟨_, rfl⟩
  unfold ToolWrapper.call
  match instantiate with
  | .error e => exact Or.inr ⟨e, rfl⟩
  | .ok () =>
    by_cases harg : json_argument ≠ ""
    · rw [if_pos harg]
      cases hload : loads json_argument with
      | error e => exact Or.inr ⟨_, rfl⟩
      | ok args => exact hargs args
    · rw [if_neg harg]
      exact hwrap (fn [])

/-! ### `update_json` fail-closed parse step -/

/-- The entry of `update_json(content, page_context, field_context)`:
`json.loads` (modelled by the `parse` oracle) is attempted on the input;
on failure the input string is returned unchanged, otherwise the filling
pipeline (everything after the `try/except`, modelled by `pipeline`) runs
on the parsed template. -/
def update_json (parse : String → Except String Json)
    (pipeline : Json → String) (content : String) : String :=
  match parse content with
  | .error _ => content
  | .ok template => pipeline template

/-- C8: when the input string does not parse as JSON, `update_json` returns
it unchanged, whatever the rest of the pipeline would do — the failure is
not retried and nothing else happens in that call. -/
theorem update_json_fail_closed (parse : String → Except String Json)
    (pipeline : Json → String) (content : String) (e : String)
    (h : parse content = .error e) :
    update_json parse pipeline content = content := by
  unfold update_json
  rw [h]

/-- Witness for C8 with a concrete non-JSON input. -/
theorem update_json_fail_closed_witness :
    update_json (fun _ => .error "Expecting value: line 1 column 1 (char 0)")
      (fun _ => "") "not json" = "not json" :=
  update_json_fail_closed _ _ "not json"
    "Expecting value: line 1 column 1 (char 0)" rfl

/-! ### Orchestration retry loop (`graph.py`) -/

namespace Graph

/-- The two state fields of `AgentState` that the retry loop reads and
writes (`is_valid_ui`, `validation_attempts`). -/
structure CheckState where
  is_valid_ui : Bool
  validation_attempts : Nat

/-- `should_continue(state)`: the router after `codesandbox_check`. -/
def should_continue (is_valid_ui : Bool) (validation_attempts : Nat) : String :=
  if is_valid_ui then "end"
  else if validation_attempts ≥ 3 then "end"
  else "retry"

/-- The effect of `codesandbox_check_node` on the loop state: the attempt
counter is incremented (`attempts = state.get("validation_attempts", 0) + 1`)
and `is_valid_ui` is set by the file checks / sandbox outcome (`outcome`),
which every branch of the node writes together with `attempts`. -/
def codesandbox_check (s : CheckState) (outcome : Bool) : CheckState :=
  ⟨outcome, s.validation_attempts + 1⟩

/-- Loop states reachable from the initial state built by the API endpoint
(`is_valid_ui = False`, `validation_attempts = 0`): the check node runs, and
runs again only while the router answers `"retry"`. -/
inductive Reachable : CheckState → Prop
  | init : Reachable ⟨false, 0⟩
  | step (s : CheckState) (outcome : Bool) : Reachable s →
      should_continue s.is_valid_ui s.validation_attempts = "retry" →
      Reachable (codesandbox_check s outcome)

/-- The router retries exactly below the ceiling with an invalid UI. -/
theorem should_continue_retry_iff (v : Bool) (a : Nat) :
    should_continue v a = "retry" ↔ (v = false ∧ a < 3) := by
  unfold should_continue
  cases v
  · by_cases h : a ≥ 3
    · simp [h]
    · simp [h]
      omega
  · simp

end Graph

/-- C4: in the orchestration retry loop, (1) every reachable state has
`validation_attempts ≤ 3`; (2) each check step increases the counter by
exactly one, so it is monotonically non-decreasing; (3) the router returns
`"end"` exactly when `is_valid_ui` is true or `validation_attempts` has
reached 3; (4) the loop terminates: no infinite run of retry steps exists,
hence no fourth validation attempt is ever performed. -/
theorem retry_loop_bounded :
    (∀ s : Graph.CheckState, Graph.Reachable s → s.validation_attempts ≤ 3) ∧
    (∀ (s : Graph.CheckState) (outcome : Bool),
      (Graph.codesandbox_check s outcome).validation_attempts =
        s.validation_attempts + 1) ∧
    (∀ (v : Bool) (a : Nat),
      Graph.should_continue v a = "end" ↔ (v = true ∨ a ≥ 3)) ∧
    (∀ f : Nat → Graph.CheckState, f 0 = ⟨false, 0⟩ →
      (∀ n, ∃ outcome, f (n + 1) = Graph.codesandbox_check (f n) outcome ∧
        Graph.should_continue (f n).is_valid_ui (f n).validation_attempts = "retry") →
      False) := by
  have hretry := Graph.should_continue_retry_iff
  have hbound : ∀ s : Graph.CheckState, Graph.Reachable s →
      s.validation_attempts ≤ 3 := by
    intro s hs
    induction hs with
    | init => exact Nat.zero_le 3
    | step s' outcome _ hr _ =>
      have := (hretry s'.is_valid_ui s'.validation_attempts).mp hr
      simp only [Graph.codesandbox_check]
      omega
  refine ⟨hbound, fun s outcome => rfl, ?_, ?_⟩
  · intro v a
    unfold Graph.should_continue
    cases v
    · by_cases h : a ≥ 3
      · simp [h]
      · simp [h]
    · simp
  · intro f h0 hstep
    have hcount : ∀ n, (f n).validation_attempts = n := by
      intro n
      induction n with
      | zero => rw [h0]
      | succ n ih =>
        obtain ⟨outcome, hf, _⟩ := hstep n
        rw [hf]
        simp only [Graph.codesandbox_check]
        omega
    obtain ⟨outcome, _, hr⟩ := hstep 3
    have := (hretry (f 3).is_valid_ui (f 3).validation_attempts).mp hr
    rw [hcount 3] at this
    omega

/-- Witness for C4 at concrete loop states: the initial state is within the
bound, and the router ends at the ceiling. -/
theorem retry_loop_bounded_witness :
    (⟨false, 0⟩ : Graph.CheckState).validation_attempts ≤ 3 ∧
      Graph.should_continue false 3 = "end" :=
  ⟨retry_loop_bounded.1 ⟨false, 0⟩ Graph.Reachable.init,
   (retry_loop_bounded.2.2.1 false 3).mpr (Or.inr (by omega))⟩

/-! ### TemplateSelector keyword scoring (`template_loader.py`) -/

/-- The keyword component of `TemplateLoader.select_template`'s weighted
score: both keyword lists are lowercased, request keywords occurring among
the template's declared keywords are counted with multiplicity
(`sum(1 for kw in keywords_lower if kw in template_keywords)`), divided by
`max(len(template_keywords), 1)` and capped at 1. -/
def keywordScore (keywords templateKeywords : List String) : ℚ :=
  min
    ((((keywords.map pyLower).filter
        (fun kw => (templateKeywords.map pyLower).contains kw)).length : ℚ) /
      (max (templateKeywords.map pyLower).length 1 : ℚ))
    1

/-- The spec's formula: the set-intersection ratio
`|keywords ∩ templateKeywords| / |templateKeywords|` on lowercased keyword
sets (0 when no keywords are declared, division by zero in `ℚ` giving 0). -/
def keywordSetRatio (keywords templateKeywords : List String) : ℚ :=
  (((keywords.map pyLower).toFinset ∩ (templateKeywords.map pyLower).toFinset).card : ℚ) /
    (((templateKeywords.map pyLower).toFinset.card : ℚ))

/-- `List.contains` is decided membership (`kw in template_keywords`). -/
theorem contains_eq_decide_mem (l : List String) (a : String) :
    l.contains a = decide (a ∈ l) := by
  rw [show l.contains a = l.elem a from rfl]
  by_cases h : a ∈ l
  · simp [List.elem_iff, h]
  · simp [h]

/-- C9 (amended): the keyword component counts request keywords with
multiplicity — `min(matches / max(n,1), 1)` — so it equals the spec's
set-intersection ratio only when both lowercased keyword lists are
duplicate-free; it is 0 whenever the template declares no keywords. -/
theorem keywordScore_spec :
    (∀ kws : List String, keywordScore kws [] = 0) ∧
    (∀ kws tks : List String, (kws.map pyLower).Nodup → (tks.map pyLower).Nodup →
      keywordScore kws tks = keywordSetRatio kws tks) := by
  have hzero : ∀ kws : List String, keywordScore kws [] = 0 := by
    intro kws
    unfold keywordScore
    have h : ((kws.map pyLower).filter
        (fun kw => (([] : List String).map pyLower).contains kw)) = [] := by
      simp
    rw [h]
    norm_num
  refine ⟨hzero, ?_⟩
  intro kws tks hk ht
  cases tks with
  | nil =>
    rw [hzero]
    unfold keywordSetRatio
    simp
  | cons t ts =>
    unfold keywordScore keywordSetRatio
    have htlne : ((t :: ts).map pyLower) ≠ [] := by simp
    have hn1 : max ((((t :: ts).map pyLower).length : ℚ)) 1 =
        ((((t :: ts).map pyLower).length : ℚ)) := by
      apply max_eq_left
      have h1 : 1 ≤ ((t :: ts).map pyLower).length := List.length_pos.mpr htlne
      exact_mod_cast h1
    have hfilter : ((kws.map pyLower).filter
        (fun kw => ((t :: ts).map pyLower).contains kw)) =
        ((kws.map pyLower).filter (fun kw => decide (kw ∈ (t :: ts).map pyLower))) := by
      apply List.filter_congr
      intro x _
      exact contains_eq_decide_mem ((t :: ts).map pyLower) x
    have hcard : ((kws.map pyLower).filter
        (fun kw => decide (kw ∈ (t :: ts).map pyLower))).length =
        ((kws.map pyLower).toFinset ∩ ((t :: ts).map pyLower).toFinset).card := by
      rw [← List.toFinset_card_of_nodup (hk.filter _)]
      congr 1
      rw [List.toFinset_filter]
      rw [← Finset.filter_mem_eq_inter]
      apply Finset.filter_congr
      intro x _
      simp
    have htcard : ((((t :: ts).map pyLower).toFinset.card : ℚ)) =
        ((((t :: ts).map pyLower).length : ℚ)) := by
      rw [List.toFinset_card_of_nodup ht]
    have hle : (((kws.map pyLower).toFinset ∩ ((t :: ts).map pyLower).toFinset).card : ℚ) /
        ((((t :: ts).map pyLower).length : ℚ)) ≤ 1 := by
      rw [div_le_one (by exact_mod_cast List.length_pos.mpr htlne)]
      have hsub : ((kws.map pyLower).toFinset ∩ ((t :: ts).map pyLower).toFinset).card ≤
          ((t :: ts).map pyLower).toFinset.card :=
        Finset.card_le_card Finset.inter_subset_right
      calc (((kws.map pyLower).toFinset ∩ ((t :: ts).map pyLower).toFinset).card : ℚ) ≤
            ((((t :: ts).map pyLower).toFinset.card : ℚ)) := by exact_mod_cast hsub
        _ = ((((t :: ts).map pyLower).length : ℚ)) := htcard
    rw [hfilter, hcard, hn1, htcard]
    exact min_eq_left hle

/-- Witness for the amended C9 at concrete keyword lists. -/
theorem keywordScore_spec_witness :
    ((["movie"].map pyLower).Nodup ∧ (["movie", "music"].map pyLower).Nodup) ∧
      keywordScore ["movie"] ["movie", "music"] =
        keywordSetRatio ["movie"] ["movie", "music"] :=
  ⟨⟨by decide, by decide⟩,
   keywordScore_spec.2 ["movie"] ["movie", "music"] (by decide) (by decide)⟩

/-- C9 as stated is false for keyword lists with repeated entries: the code
counts matches with multiplicity, so `["ai","ai"]` against declared keywords
`["ai","code"]` scores `2/2 = 1`, while the claimed set-intersection ratio
is `1/2`. -/
theorem keywordScore_counterexample :
    keywordScore ["ai", "ai"] ["ai", "code"] = 1 ∧
      keywordSetRatio ["ai", "ai"] ["ai", "code"] = 1 / 2 ∧
      keywordScore ["ai", "ai"] ["ai", "code"] ≠
        keywordSetRatio ["ai", "ai"] ["ai", "code"] := by
  have hmap1 : (["ai", "ai"] : List String).map pyLower = ["ai", "ai"] := by decide
  have hmap2 : (["ai", "code"] : List String).map pyLower = ["ai", "code"] := by decide
  have hf : (["ai", "ai"] : List String).filter
      (fun kw => (["ai", "code"] : List String).contains kw) = ["ai", "ai"] := by decide
  have hks : keywordScore ["ai", "ai"] ["ai", "code"] = 1 := by
    unfold keywordScore
    rw [hmap1, hmap2, hf]
    norm_num
  have hcard : ((["ai", "ai"] : List String).toFinset ∩
      (["ai", "code"] : List String).toFinset).card = 1 := by decide
  have hcard2 : (["ai", "code"] : List String).toFinset.card = 2 := by decide
  have hsr : keywordSetRatio ["ai", "ai"] ["ai", "code"] = 1 / 2 := by
    unfold keywordSetRatio
    rw [hmap1, hmap2, hcard, hcard2]
    norm_num
  refine ⟨hks, hsr, ?_⟩
  rw [hks, hsr]
  norm_num

end Disco
